import Mathlib

/-!
Shallow embedding of the TRIAS protocol client (`src/trias_client.py`) for
checking the repository's specification claims.

Conventions of the embedding:
* Python `None` becomes `Option.none`; optional strings/numbers are `Option String`
  / `Option ℚ`.  Python floats are modelled by rationals `ℚ`; the transcendental
  float pipeline of the Haversine computation (lines 303-312) is abstracted as a
  distance-function parameter, all filtering/sorting/annotation logic is embedded
  exactly.
* Python truthiness (`if x:` on an optional string or float) is modelled by
  `truthyS` / `truthyQ`: `None`, `""` and `0.0` are falsy.
* Python `round` (banker's rounding, round-half-to-even) is `pyRound` on ℚ and
  `pyRound60` for `round(seconds / 60)`.
* Python's stable `list.sort(key=...)` is modelled by a stable insertion sort
  (`sortByDistance`); stable sorts by the same key agree pointwise.
-/

/-- Truthiness of an optional string: Python's `if s:` — `None` and `""` are falsy. -/
def truthyS : Option String → Bool
  | none => false
  | some s => s ≠ ""

/-- Truthiness of an optional rational (Python float): `None` and `0.0` are falsy. -/
def truthyQ : Option ℚ → Bool
  | none => false
  | some q => q ≠ 0

/-- Python's `x or default` on an optional string, producing a string. -/
def getOr (a : Option String) (d : String) : String :=
  match a with
  | none => d
  | some s => if s = "" then d else s

/-- Python's `a or b` on two optional strings. -/
def pyOrS (a b : Option String) : Option String :=
  if truthyS a then a else b

/-- Python's `round` on a rational: round half to even (banker's rounding).
The fractional part `q - ⌊q⌋` is compared with `1/2` through the integer
quantity `2*(q.num - ⌊q⌋*q.den)` versus `q.den`, which keeps the definition
kernel-computable. -/
def pyRound (q : ℚ) : ℤ :=
  let f := ⌊q⌋
  let r2 := 2 * q.num - 2 * f * (q.den : ℤ)
  if r2 < (q.den : ℤ) then f
  else if (q.den : ℤ) < r2 then f + 1
  else if f % 2 = 0 then f else f + 1

/-- `round(s / 60)` for an integer number of seconds `s`, as the code computes
`delay_minutes` (line 637); round half to even on the exact quotient. -/
def pyRound60 (s : ℤ) : ℤ :=
  let f := Int.fdiv s 60
  let r := s - 60 * f
  if r < 30 then f
  else if 30 < r then f + 1
  else if f % 2 = 0 then f else f + 1

/-! ## Location results and the name-grouping pass (lines 485-594) -/

/-- One raw location result as assembled at lines 537-543: the per-element XML
extraction stage yields a record with a stop id, optional name, optional
locality and optional coordinates. -/
structure RawLoc where
  stop_id : String
  stop_name : Option String
  locality : Option String
  longitude : Option ℚ
  latitude : Option ℚ
deriving DecidableEq

/-- One entry of the `grouped` dict (lines 558-576): the id list under the
key `stop_id`, the display name, locality, coordinates and platform count. -/
structure StopGroup where
  stop_id : List String
  stop_name : String
  locality : Option String
  longitude : Option ℚ
  latitude : Option ℚ
  platforms : Nat
deriving DecidableEq

/-- A combined stop record as produced at lines 583-591. -/
structure GroupedStop where
  stop_id : String
  stop_ids : List String
  stop_name : String
  locality : Option String
  longitude : Option ℚ
  latitude : Option ℚ
  platforms : Nat
deriving DecidableEq

/-- The falsy-name check at line 555 (`if not stop_name: continue`):
returns the name when it is present and non-empty. -/
def truthyStr : Option String → Option String
  | none => none
  | some s => if s = "" then none else some s

/-- First occurrence of a name: lines 560-567. -/
def initGroup (nm : String) (r : RawLoc) : StopGroup :=
  ⟨[r.stop_id], nm, r.locality, r.longitude, r.latitude, 1⟩

/-- Additional same-named result: lines 570-576 — append the id, bump the
platform count, and adopt the result's coordinate pair when the stored
longitude is `None` and the result's longitude is not. -/
def updateGroup (g : StopGroup) (r : RawLoc) : StopGroup :=
  let g' := { g with stop_id := g.stop_id ++ [r.stop_id], platforms := g.platforms + 1 }
  if g.longitude = none ∧ r.longitude ≠ none then
    { g' with longitude := r.longitude, latitude := r.latitude }
  else g'

/-- Processing one raw result in the grouping loop (lines 553-576).  The
Python dict keyed by name is modelled as an insertion-ordered list of groups
(one per name, an invariant established below). -/
def insertResult (acc : List StopGroup) (r : RawLoc) : List StopGroup :=
  match truthyStr r.stop_name with
  | none => acc
  | some nm =>
    if acc.any (fun g => g.stop_name == nm) then
      acc.map (fun g => if g.stop_name == nm then updateGroup g r else g)
    else
      acc ++ [initGroup nm r]

/-- The grouping loop over all raw results (lines 552-576). -/
def groupLocationResults (rs : List RawLoc) : List StopGroup :=
  rs.foldl insertResult []

/-- Conversion of a group back to list format (lines 580-592): the first id
becomes the primary id. -/
def toCombined (g : StopGroup) : GroupedStop :=
  ⟨g.stop_id.headD "", g.stop_id, g.stop_name, g.locality, g.longitude, g.latitude, g.platforms⟩

/-- `_parse_location_results`, grouping half (lines 551-594), as a function of
the raw per-element records extracted at lines 485-549. -/
def parse_location_results (rs : List RawLoc) : List GroupedStop :=
  (groupLocationResults rs).map toCombined

/-- Reading a combined record back as a raw result, as the grouping pass would
see it (it reads the keys `stop_id`, `stop_name`, `locality`, `longitude`,
`latitude`, which a combined record also carries). -/
def groupedToRaw (c : GroupedStop) : RawLoc :=
  ⟨c.stop_id, some c.stop_name, c.locality, c.longitude, c.latitude⟩

/-- Collapse of a combined record under re-grouping: the id list shrinks to the
primary id and the platform count resets to 1. -/
def collapseStop (c : GroupedStop) : GroupedStop :=
  { c with stop_ids := [c.stop_id], platforms := 1 }

/-- The raw results of the same (kept) display name, in document order: the
members merged into the group of that name. -/
def membersOf (nm : String) (rs : List RawLoc) : List RawLoc :=
  rs.filter (fun r => truthyStr r.stop_name == some nm)

/-- Find the group carrying a given display name. -/
def findGroup (nm : String) (l : List StopGroup) : Option StopGroup :=
  l.find? (fun g => g.stop_name == nm)

/-! ## The stop cache merge (`_add_to_cache`, lines 68-80) -/

/-- `_add_to_cache`: filter the incoming stops to those whose primary id is not
among the cached primary ids, append them, and report whether the cache was
persisted (line 79: batch of at least 10, or total divisible by 50).  Returns
the new cache and the persistence flag. -/
def add_to_cache (cache stops : List GroupedStop) : List GroupedStop × Bool :=
  let existing_ids := cache.map (·.stop_id)
  let new_stops := stops.filter (fun s => !(existing_ids.contains s.stop_id))
  if new_stops.isEmpty then (cache, false)
  else
    let cache' := cache ++ new_stops
    (cache', decide (10 ≤ new_stops.length ∨ cache'.length % 50 = 0))

/-- The flat multiset of all ids across all cached records (union of every
record's full `stop_ids` list). -/
def flatIds (cache : List GroupedStop) : List String :=
  (cache.map (·.stop_ids)).flatten

/-! ## Coordinate search: radius filter and sort (lines 298-328) -/

/-- A combined stop annotated with its rounded distance (line 315). -/
structure DistStop where
  loc : GroupedStop
  distance : ℤ
deriving DecidableEq

/-- Stable insertion of a stop into a distance-sorted list, placing it after
every stop of smaller or equal distance (the behaviour of Python's stable
`list.sort` for an element arriving later in the input). -/
def insertAfterLe (a : DistStop) : List DistStop → List DistStop
  | [] => [a]
  | b :: bs => if b.distance ≤ a.distance then b :: insertAfterLe a bs else a :: b :: bs

/-- Stable sort by the attached distance, modelling `filtered.sort(key=...)`
at line 319 (all elements carry the `distance` key, so the `999999` default is
never used). -/
def sortByDistance (l : List DistStop) : List DistStop :=
  l.foldl (fun acc a => insertAfterLe a acc) []

/-- The client-side radius filter of `search_location_by_coordinates`
(lines 298-328).  `hav lat lon` abstracts the float Haversine pipeline of
lines 303-312 (center point and Earth radius folded into the function); every
other step — the truthiness test on both coordinates, the `dist <= radius`
filter, the `round(dist)` annotation and the sort — is embedded directly.
The empty-input early return of line 328 returns the same empty list. -/
def geo_filter (hav : ℚ → ℚ → ℚ) (radius : ℤ) (results : List GroupedStop) : List DistStop :=
  let filtered := results.filterMap (fun r =>
    if truthyQ r.latitude && truthyQ r.longitude then
      if hav (r.latitude.getD 0) (r.longitude.getD 0) ≤ (radius : ℚ) then
        some ⟨r, pyRound (hav (r.latitude.getD 0) (r.longitude.getD 0))⟩
      else none
    else none)
  sortByDistance filtered

/-- `search_location_by_coordinates`, response-processing half: parse and
group the location results, then filter by radius and sort by distance. -/
def search_location_by_coordinates (hav : ℚ → ℚ → ℚ) (radius : ℤ)
    (rs : List RawLoc) : List DistStop :=
  geo_filter hav radius (parse_location_results rs)

/-! ## Departure parsing and delay computation (lines 596-660) -/

/-- The fields of one stop-event result that `_parse_departure_results` reads
(lines 608-623): the two service-departure times and the service description. -/
structure DepartureElem where
  timetabledTime : Option String
  estimatedTime : Option String
  line : Option String
  destination : Option String
  mode : Option String
deriving DecidableEq

/-- The departure record built at lines 641-652 (the wall-clock
`current_time` field is ambient-time dependent and not modelled). -/
structure DepartureRecord where
  line : Option String
  destination : Option String
  mode : Option String
  planned_time : Option String
  estimated_time : Option String
  actual_time : Option String
  delay_minutes : Option ℤ
  delay_seconds : Option ℤ
  has_realtime : Bool
deriving DecidableEq

/-- A parsed `datetime`: `aware` records whether the string carried a UTC
offset; `seconds` is the absolute time in seconds for aware values (offset
already subtracted) and the wall-clock seconds for naive values. -/
structure PyDateTime where
  aware : Bool
  seconds : ℤ
deriving DecidableEq

/-- Subtraction of two parsed datetimes in whole seconds:
defined only when both are aware or both naive (Python raises `TypeError`
on a mixed pair, swallowed by the bare `except` at line 638). -/
def pySub (a b : PyDateTime) : Option ℤ :=
  if a.aware = b.aware then some (a.seconds - b.seconds) else none

def twoDigits (a b : Char) : Option Nat :=
  if a.isDigit && b.isDigit then some (10 * (a.toNat - 48) + (b.toNat - 48)) else none

def fourDigits (a b c d : Char) : Option Nat :=
  match twoDigits a b, twoDigits c d with
  | some hi, some lo => some (100 * hi + lo)
  | _, _ => none

def isLeapYear (y : Nat) : Bool :=
  (y % 4 == 0 && y % 100 != 0) || y % 400 == 0

def daysInMonth (y m : Nat) : Nat :=
  if m = 2 then (if isLeapYear y then 29 else 28)
  else if m = 4 ∨ m = 6 ∨ m = 9 ∨ m = 11 then 30
  else 31

/-- Days since 1970-01-01 of a civil date (Gregorian, year at least 1). -/
def daysFromCivil (y m d : Nat) : ℤ :=
  let y' := if m ≤ 2 then y - 1 else y
  let era := y' / 400
  let yoe := y' - era * 400
  let mp := (m + 9) % 12
  let doy := (153 * mp + 2) / 5 + (d - 1)
  let doe := yoe * 365 + yoe / 4 - yoe / 100 + doy
  (era * 146097 + doe : ℤ) - 719468

/-- Optional trailing UTC offset `±HH:MM` of an ISO-8601 string: returns
`some none` for no offset (a naive datetime), `some (some o)` for an offset of
`o` seconds, `none` when the tail is not a valid offset. -/
def parseOffsetTail : List Char → Option (Option ℤ)
  | [] => some none
  | '+' :: h1 :: h2 :: ':' :: m1 :: m2 :: [] =>
    match twoDigits h1 h2, twoDigits m1 m2 with
    | some hh, some mm =>
      if hh ≤ 23 ∧ mm ≤ 59 then some (some ((hh : ℤ) * 3600 + mm * 60)) else none
    | _, _ => none
  | '-' :: h1 :: h2 :: ':' :: m1 :: m2 :: [] =>
    match twoDigits h1 h2, twoDigits m1 m2 with
    | some hh, some mm =>
      if hh ≤ 23 ∧ mm ≤ 59 then some (some (-((hh : ℤ) * 3600 + mm * 60))) else none
    | _, _ => none
  | _ => none

/-- Time-of-day `HH:MM[:SS]` plus optional offset. -/
def parseTimeTail : List Char → Option (ℤ × Option ℤ)
  | h1 :: h2 :: ':' :: m1 :: m2 :: rest =>
    match twoDigits h1 h2, twoDigits m1 m2 with
    | some hh, some mm =>
      if hh ≤ 23 ∧ mm ≤ 59 then
        match rest with
        | ':' :: s1 :: s2 :: rest2 =>
          match twoDigits s1 s2 with
          | some ss =>
            if ss ≤ 59 then
              match parseOffsetTail rest2 with
              | some o => some ((hh : ℤ) * 3600 + mm * 60 + ss, o)
              | none => none
            else none
          | none => none
        | _ =>
          match parseOffsetTail rest with
          | some o => some ((hh : ℤ) * 3600 + mm * 60, o)
          | none => none
      else none
    | _, _ => none
  | _ => none

/-- Model of `datetime.fromisoformat` on the forms the client handles:
`YYYY-MM-DD`, optionally followed by a separator character and
`HH:MM[:SS]`, optionally followed by a `±HH:MM` offset (fractional seconds
are outside the model).  Returns a naive or aware `PyDateTime`. -/
def fromisoformat (s : String) : Option PyDateTime :=
  match s.data with
  | y1 :: y2 :: y3 :: y4 :: '-' :: mo1 :: mo2 :: '-' :: d1 :: d2 :: rest =>
    match fourDigits y1 y2 y3 y4, twoDigits mo1 mo2, twoDigits d1 d2 with
    | some y, some mo, some dd =>
      if 1 ≤ y ∧ 1 ≤ mo ∧ mo ≤ 12 ∧ 1 ≤ dd ∧ dd ≤ daysInMonth y mo then
        match rest with
        | [] => some ⟨false, daysFromCivil y mo dd * 86400⟩
        | _sep :: t =>
          match parseTimeTail t with
          | some (secs, none) => some ⟨false, daysFromCivil y mo dd * 86400 + secs⟩
          | some (secs, some off) => some ⟨true, daysFromCivil y mo dd * 86400 + secs - off⟩
          | none => none
      else none
    | _, _, _ => none
  | _ => none

/-- `s.replace('Z', '+00:00')`: every `Z` character is replaced by the
six-character UTC offset (single-character pattern, so per-character
substitution is exact). -/
def replaceZ (s : String) : String :=
  String.mk (s.data.foldr
    (fun c acc => if c = 'Z' then '+' :: '0' :: '0' :: ':' :: '0' :: '0' :: acc else c :: acc) [])

/-- `datetime.fromisoformat(t.replace('Z', '+00:00'))` as at lines 634-635. -/
def fromisoPy (s : String) : Option PyDateTime :=
  fromisoformat (replaceZ s)

/-- The delay computation of lines 630-639: attempted only when both time
strings are truthy; a parse failure or a naive/aware mixed subtraction is
swallowed (`except: pass`), leaving both fields absent.  Returns
`(delay_seconds, delay_minutes)` when it succeeds. -/
def computeDelays (planned estimated : Option String) : Option (ℤ × ℤ) :=
  match planned, estimated with
  | some ps, some es =>
    if ps ≠ "" ∧ es ≠ "" then
      match fromisoPy ps, fromisoPy es with
      | some tp, some te =>
        match pySub te tp with
        | some s => some (s, pyRound60 s)
        | none => none
      | _, _ => none
    else none
  | _, _ => none

/-- One iteration of `_parse_departure_results` (lines 626-652), given the
extracted fields of a stop-event result. -/
def parse_departure (dep : DepartureElem) : DepartureRecord :=
  let planned := dep.timetabledTime
  let estimated := dep.estimatedTime
  let delays := computeDelays planned estimated
  { line := dep.line
    destination := dep.destination
    mode := dep.mode
    planned_time := planned
    estimated_time := estimated
    actual_time := if truthyS estimated then estimated else planned
    delay_minutes := delays.map (·.2)
    delay_seconds := delays.map (·.1)
    has_realtime := estimated.isSome }

/-! ## Trip parsing (lines 662-806) -/

/-- A `LegStart`/`LegEnd` element of a continuous leg (lines 717-739): the
two name sources and the two time sources the parser consults. -/
structure LegPoint where
  stopPointName : Option String
  locationName : Option String
  time : Option String
  estimatedTime : Option String
deriving DecidableEq

/-- A `ContinuousLeg` element (lines 714-752). -/
structure ContinuousLegElem where
  legStart : Option LegPoint
  legEnd : Option LegPoint
  duration : Option String
deriving DecidableEq

/-- A `LegBoard`/`LegAlight` element of a timed leg (lines 757-779). -/
structure TimedLegEnd where
  stopPointName : Option String
  estimatedTime : Option String
  timetabledTime : Option String
deriving DecidableEq

/-- The `Service` element of a timed leg (lines 782-789). -/
structure ServiceElem where
  publishedLineName : Option String
  mode : Option String
  destinationText : Option String
deriving DecidableEq

/-- A `TimedLeg` element (lines 754-806). -/
structure TimedLegElem where
  legBoard : Option TimedLegEnd
  legAlight : Option TimedLegEnd
  service : Option ServiceElem
  duration : Option String
deriving DecidableEq

/-- A `TripLeg` element (lines 699-712): it may contain a continuous leg, a
timed leg, both (the continuous one wins, line 703), or neither. -/
structure TripLegElem where
  continuousLeg : Option ContinuousLegElem
  timedLeg : Option TimedLegElem
deriving DecidableEq

/-- A parsed leg as returned by the two leg parsers (lines 744-752 and
794-806).  Keys absent from the continuous-leg dict (`line`, `destination`,
the planned times) are modelled as `none`; `from`/`to` are `fromName`/`toName`. -/
structure LegRecord where
  legType : String
  mode : String
  line : Option String
  destination : Option String
  fromName : String
  toName : String
  departure_time : Option String
  departure_time_planned : Option String
  arrival_time : Option String
  arrival_time_planned : Option String
  duration : Option String
deriving DecidableEq

/-- `_parse_continuous_leg` (lines 714-752). -/
def parse_continuous_leg (l : ContinuousLegElem) : LegRecord :=
  let start_name := match l.legStart with
    | none => none
    | some p => pyOrS p.stopPointName p.locationName
  let start_time := match l.legStart with
    | none => none
    | some p => pyOrS p.time p.estimatedTime
  let end_name := match l.legEnd with
    | none => none
    | some p => pyOrS p.stopPointName p.locationName
  let end_time := match l.legEnd with
    | none => none
    | some p => pyOrS p.time p.estimatedTime
  { legType := "continuous"
    mode := "walk"
    line := none
    destination := none
    fromName := getOr start_name "Unknown"
    toName := getOr end_name "Unknown"
    departure_time := start_time
    departure_time_planned := none
    arrival_time := end_time
    arrival_time_planned := none
    duration := l.duration }

/-- `_parse_timed_leg` (lines 754-806). -/
def parse_timed_leg (l : TimedLegElem) : LegRecord :=
  let board_name := l.legBoard.bind (·.stopPointName)
  let board_planned := l.legBoard.bind (·.timetabledTime)
  let board_est := l.legBoard.bind (·.estimatedTime)
  let board_time := if truthyS board_est then board_est else board_planned
  let alight_name := l.legAlight.bind (·.stopPointName)
  let alight_planned := l.legAlight.bind (·.timetabledTime)
  let alight_est := l.legAlight.bind (·.estimatedTime)
  let alight_time := if truthyS alight_est then alight_est else alight_planned
  let line := l.service.bind (·.publishedLineName)
  let mode := l.service.bind (·.mode)
  let dest := l.service.bind (·.destinationText)
  { legType := "timed"
    mode := getOr mode "unknown"
    line := some (getOr line "Unknown")
    destination := dest
    fromName := getOr board_name "Unknown"
    toName := getOr alight_name "Unknown"
    departure_time := board_time
    departure_time_planned := board_planned
    arrival_time := alight_time
    arrival_time_planned := alight_planned
    duration := l.duration }

/-- `_parse_trip_leg` (lines 699-712): a leg that is neither continuous nor
timed yields `None`. -/
def parse_trip_leg (e : TripLegElem) : Option LegRecord :=
  match e.continuousLeg with
  | some c => some (parse_continuous_leg c)
  | none =>
    match e.timedLeg with
    | some t => some (parse_timed_leg t)
    | none => none

/-- The `Trip` element of a trip result (lines 668-688). -/
structure TripElem where
  start_time : Option String
  end_time : Option String
  duration : Option String
  legs : List TripLegElem
deriving DecidableEq

/-- One `TripResult` element: it may lack a `Trip` child (line 669). -/
structure TripResultElem where
  trip : Option TripElem
deriving DecidableEq

/-- A parsed trip (lines 684-689). -/
structure TripRecord where
  start_time : Option String
  end_time : Option String
  duration : Option String
  legs : List LegRecord
deriving DecidableEq

/-- `_parse_trip_results` (lines 662-697): results without a `Trip` child are
skipped; within a trip, a leg is appended only when `_parse_trip_leg`
returned a (necessarily non-empty, hence truthy) dict (lines 679-682). -/
def parse_trip_results (rs : List TripResultElem) : List TripRecord :=
  rs.filterMap (fun tr => tr.trip.map (fun t =>
    ⟨t.start_time, t.end_time, t.duration, t.legs.filterMap parse_trip_leg⟩))

/-! ## Transport (`_make_request`, lines 132-165) -/

/-- Outcome of the HTTP exchange: a connection-level failure (a
`requests.RequestException` carrying a message) or a response with a status
code and a body. -/
inductive HttpOutcome where
  | connError (msg : String)
  | response (status : Nat) (body : String)
deriving DecidableEq

/-- Result of `_make_request`: the re-raised request failure (connection
failure or raised HTTP status), the empty-body failure, the XML-parse
failure, or the parsed document. -/
inductive MakeReqResult (α : Type) where
  | requestFailed (msg : String)
  | emptyBody
  | xmlParseFailed (body : String)
  | ok (doc : α)
deriving DecidableEq

/-- Python's byte-level `strip()` whitespace set. -/
def isPySpace (c : Char) : Bool :=
  c = ' ' ∨ c = '\t' ∨ c = '\n' ∨ c = '\r' ∨ c = '\x0b' ∨ c = '\x0c'

/-- `body.strip()` (both ends). -/
def pyStrip (s : String) : String :=
  String.mk (((s.data.dropWhile isPySpace).reverse.dropWhile isPySpace).reverse)

/-- `body[:2000]`, the truncated excerpt logged for an HTTP error status. -/
def strTake (s : String) (n : Nat) : String :=
  String.mk (s.data.take n)

/-- The diagnostic printed at line 149 for an error status: the status code
and the first 2000 characters of the body. -/
def statusDiagnostic (s : Nat) (body : String) : String :=
  "HTTP " ++ toString s ++ ": " ++ strTake body 2000

/-- The message of the `requests.HTTPError` raised by `raise_for_status`
(reason phrase and URL are not modelled). -/
def httpErrorText (s : Nat) : String :=
  toString s ++ " Error"

/-- Body handling after the status check (lines 152-162): the empty/whitespace
body check, then the XML parse (`ET.fromstring` abstracted as `parse`). -/
def processBody {α : Type} (parse : String → Option α) (body : String) : MakeReqResult α :=
  if pyStrip body = "" then .emptyBody
  else
    match parse body with
    | some d => .ok d
    | none => .xmlParseFailed body

/-- `_make_request` (lines 132-165) given the outcome of the POST.  Returns
the printed diagnostics alongside the result.  A status of at least 400 is
logged with `statusDiagnostic`; `raise_for_status` raises (an exception
re-raised as `API request failed`) exactly for statuses 400-599; otherwise
processing falls through to the empty-body check and the XML parse. -/
def make_request {α : Type} (parse : String → Option α) (out : HttpOutcome) :
    List String × MakeReqResult α :=
  match out with
  | .connError m => ([], .requestFailed ("API request failed: " ++ m))
  | .response s body =>
    if 400 ≤ s then
      if s < 600 then
        ([statusDiagnostic s body], .requestFailed ("API request failed: " ++ httpErrorText s))
      else ([statusDiagnostic s body], processBody parse body)
    else ([], processBody parse body)

/-! ## Concrete instances used to settle the claims -/

/-- A stop record with a one-character id and name-independent fields. -/
def mkStop (c : Char) : GroupedStop :=
  ⟨String.mk [c], [String.mk [c]], "N", none, none, none, 1⟩

/-- A cache of 48 stops with distinct primary ids. -/
def cache48 : List GroupedStop := (List.range 48).map (fun i => mkStop (Char.ofNat (65 + i)))

/-- Five fresh stops, ids disjoint from `cache48`. -/
def batch5 : List GroupedStop := (List.range 5).map (fun i => mkStop (Char.ofNat (200 + i)))

/-- A cached record whose id list `["A", "B"]` goes beyond its primary id. -/
def cacheAB : List GroupedStop := [⟨"A", ["A", "B"], "X", none, none, none, 2⟩]

/-- An incoming stop whose primary id `"B"` already occurs in `cacheAB`'s flat
id set but not among its primary ids. -/
def stopB : List GroupedStop := [⟨"B", ["B"], "Y", none, none, none, 1⟩]

/-- Two same-named raw results (two platforms of the stop `X`). -/
def twoPlatformsX : List RawLoc :=
  [⟨"a", some "X", none, none, none⟩, ⟨"b", some "X", none, none, none⟩]

/-- Two same-named raw results: the first has a longitude but no latitude, the
second a full coordinate pair. -/
def halfCoordsX : List RawLoc :=
  [⟨"a", some "X", none, some 1, none⟩, ⟨"b", some "X", none, some 2, some 2⟩]

/-- A trip result containing one leg element that is neither continuous nor
timed. -/
def oneUnknownLegTrip : List TripResultElem :=
  [⟨some ⟨none, none, none, [⟨none, none⟩]⟩⟩]

/-- The departure element of the worked delay example: planned
`2024-01-01T10:00:00Z`, estimated `2024-01-01T10:03:00Z`. -/
def exampleDep : DepartureElem :=
  ⟨some "2024-01-01T10:00:00Z", some "2024-01-01T10:03:00Z", none, none, none⟩

/-- A departure element whose planned time cannot be parsed. -/
def badTimeDep : DepartureElem :=
  ⟨some "not-a-time", some "2024-01-01T10:03:00Z", none, none, none⟩

/-- A raw stop sitting on the equator: latitude parses to exactly `0.0`. -/
def equatorRaw : RawLoc := ⟨"s", some "Equator", none, some 15, some 0⟩

/-- A raw stop with unexceptional coordinates. -/
def innerCityRaw : RawLoc := ⟨"g", some "Graz Hbf", none, some 15, some 47⟩

/-- The grouped record of `innerCityRaw`. -/
def innerCityStop : GroupedStop := ⟨"g", ["g"], "Graz Hbf", none, some 15, some 47, 1⟩

/-- A distance function that reports three meters everywhere, standing in for
the Haversine pipeline in concrete instances. -/
def constHav3 : ℚ → ℚ → ℚ := fun _ _ => 3

/-! ## Helper lemmas: the stable distance sort -/

theorem insertAfterLe_mem (a : DistStop) (l : List DistStop) (x : DistStop) :
    x ∈ insertAfterLe a l ↔ x = a ∨ x ∈ l := by
  induction l with
  | nil => simp [insertAfterLe]
  | cons b bs ih =>
    simp only [insertAfterLe]
    split
    · simp only [List.mem_cons, ih]
      tauto
    · simp only [List.mem_cons]

theorem insertAfterLe_pairwise (a : DistStop) (l : List DistStop)
    (h : l.Pairwise (fun x y => x.distance ≤ y.distance)) :
    (insertAfterLe a l).Pairwise (fun x y => x.distance ≤ y.distance) := by
  induction l with
  | nil => simp [insertAfterLe]
  | cons b bs ih =>
    rw [List.pairwise_cons] at h
    obtain ⟨hb, hbs⟩ := h
    simp only [insertAfterLe]
    split
    · rename_i hle
      rw [List.pairwise_cons]
      refine ⟨fun x hx => ?_, ih hbs⟩
      rcases (insertAfterLe_mem a bs x).mp hx with rfl | hx
      · exact hle
      · exact hb x hx
    · rename_i hgt
      push_neg at hgt
      rw [List.pairwise_cons]
      refine ⟨fun x hx => ?_, List.pairwise_cons.mpr ⟨hb, hbs⟩⟩
      rcases List.mem_cons.mp hx with rfl | hx
      · exact le_of_lt hgt
      · exact le_trans (le_of_lt hgt) (hb x hx)

theorem sortByDistance_go_pairwise (l acc : List DistStop)
    (h : acc.Pairwise (fun x y => x.distance ≤ y.distance)) :
    (l.foldl (fun acc a => insertAfterLe a acc) acc).Pairwise
      (fun x y => x.distance ≤ y.distance) := by
  induction l generalizing acc with
  | nil => exact h
  | cons b bs ih => exact ih _ (insertAfterLe_pairwise b acc h)

theorem sortByDistance_pairwise (l : List DistStop) :
    (sortByDistance l).Pairwise (fun x y => x.distance ≤ y.distance) :=
  sortByDistance_go_pairwise l [] (List.Pairwise.nil)

theorem sortByDistance_go_mem (l acc : List DistStop) (x : DistStop) :
    x ∈ l.foldl (fun acc a => insertAfterLe a acc) acc ↔ x ∈ acc ∨ x ∈ l := by
  induction l generalizing acc with
  | nil => simp
  | cons b bs ih =>
    simp only [List.foldl_cons, ih, insertAfterLe_mem, List.mem_cons]
    tauto

theorem sortByDistance_mem (l : List DistStop) (x : DistStop) :
    x ∈ sortByDistance l ↔ x ∈ l := by
  simpa [sortByDistance] using sortByDistance_go_mem l [] x

/-! ## Helper lemmas: the name-grouping pass -/

theorem truthyStr_eq_some (o : Option String) (nm : String) :
    truthyStr o = some nm ↔ o = some nm ∧ nm ≠ "" := by
  cases o with
  | none => simp [truthyStr]
  | some s =>
    simp only [truthyStr]
    split
    · rename_i hs
      subst hs
      simp
      rintro rfl
      simp
    · rename_i hs
      simp only [Option.some_inj]
      constructor
      · rintro rfl
        exact ⟨rfl, hs⟩
      · rintro ⟨rfl, _⟩
        rfl

theorem updateGroup_stop_id (g : StopGroup) (r : RawLoc) :
    (updateGroup g r).stop_id = g.stop_id ++ [r.stop_id] := by
  simp only [updateGroup]
  split <;> rfl

theorem updateGroup_platforms (g : StopGroup) (r : RawLoc) :
    (updateGroup g r).platforms = g.platforms + 1 := by
  simp only [updateGroup]
  split <;> rfl

theorem updateGroup_stop_name (g : StopGroup) (r : RawLoc) :
    (updateGroup g r).stop_name = g.stop_name := by
  simp only [updateGroup]
  split <;> rfl

theorem updateGroup_locality (g : StopGroup) (r : RawLoc) :
    (updateGroup g r).locality = g.locality := by
  simp only [updateGroup]
  split <;> rfl

theorem updateGroup_coords_set (g : StopGroup) (r : RawLoc)
    (h1 : g.longitude = none) (h2 : r.longitude ≠ none) :
    (updateGroup g r).longitude = r.longitude ∧ (updateGroup g r).latitude = r.latitude := by
  simp only [updateGroup]
  rw [if_pos ⟨h1, h2⟩]
  exact ⟨rfl, rfl⟩

theorem updateGroup_coords_keep (g : StopGroup) (r : RawLoc)
    (h : ¬(g.longitude = none ∧ r.longitude ≠ none)) :
    (updateGroup g r).longitude = g.longitude ∧ (updateGroup g r).latitude = g.latitude := by
  simp only [updateGroup]
  rw [if_neg h]
  exact ⟨rfl, rfl⟩

theorem map_update_names (acc : List StopGroup) (nm : String) (r : RawLoc) :
    (acc.map (fun g => if g.stop_name == nm then updateGroup g r else g)).map (·.stop_name) =
      acc.map (·.stop_name) := by
  induction acc with
  | nil => rfl
  | cons b bs ih =>
    simp only [List.map_cons, ih, List.cons.injEq, and_true]
    split
    · exact updateGroup_stop_name b r
    · rfl

theorem insertResult_good (acc : List StopGroup) (r : RawLoc)
    (h1 : ∀ g ∈ acc, g.stop_name ≠ "") (h2 : (acc.map (·.stop_name)).Nodup) :
    (∀ g ∈ insertResult acc r, g.stop_name ≠ "") ∧
      ((insertResult acc r).map (·.stop_name)).Nodup := by
  unfold insertResult
  cases htr : truthyStr r.stop_name with
  | none => exact ⟨h1, h2⟩
  | some nm =>
    have hnm : nm ≠ "" := ((truthyStr_eq_some _ _).mp htr).2
    by_cases hany : acc.any (fun g => g.stop_name == nm) = true
    · simp only [hany, if_true]
      constructor
      · intro g hg
        obtain ⟨g0, hg0, rfl⟩ := List.mem_map.mp hg
        by_cases he : g0.stop_name == nm
        · rw [if_pos he, updateGroup_stop_name]
          exact h1 g0 hg0
        · rw [if_neg he]
          exact h1 g0 hg0
      · rw [map_update_names]
        exact h2
    · simp only [if_neg hany]
      have hnotin : nm ∉ acc.map (·.stop_name) := by
        intro hmem
        obtain ⟨g0, hg0, hgn⟩ := List.mem_map.mp hmem
        exact hany (List.any_eq_true.mpr ⟨g0, hg0, by simp [hgn]⟩)
      constructor
      · intro g hg
        rcases List.mem_append.mp hg with h | h
        · exact h1 g h
        · rw [List.mem_singleton.mp h]
          exact hnm
      · rw [List.map_append]
        rw [List.nodup_append]
        refine ⟨h2, List.nodup_singleton _, ?_⟩
        intro x hx hx'
        rw [List.map_singleton, List.mem_singleton] at hx'
        subst hx'
        exact hnotin hx

theorem groupLoc_go_good (rs : List RawLoc) (acc : List StopGroup)
    (h1 : ∀ g ∈ acc, g.stop_name ≠ "") (h2 : (acc.map (·.stop_name)).Nodup) :
    (∀ g ∈ rs.foldl insertResult acc, g.stop_name ≠ "") ∧
      ((rs.foldl insertResult acc).map (·.stop_name)).Nodup := by
  induction rs generalizing acc with
  | nil => exact ⟨h1, h2⟩
  | cons r rest ih =>
    obtain ⟨h1', h2'⟩ := insertResult_good acc r h1 h2
    exact ih _ h1' h2'

theorem groupLocationResults_good (rs : List RawLoc) :
    (∀ g ∈ groupLocationResults rs, g.stop_name ≠ "") ∧
      ((groupLocationResults rs).map (·.stop_name)).Nodup :=
  groupLoc_go_good rs [] (by simp) (by simp)

theorem groupLoc_go_singleton (rs : List RawLoc) (acc : List StopGroup)
    (hall : ∀ r ∈ rs, (truthyStr r.stop_name).isSome)
    (hnd : (acc.map (·.stop_name) ++ rs.filterMap (fun r => truthyStr r.stop_name)).Nodup) :
    rs.foldl insertResult acc =
      acc ++ rs.map (fun r => initGroup ((truthyStr r.stop_name).getD "") r) := by
  induction rs generalizing acc with
  | nil => simp
  | cons r rest ih =>
    obtain ⟨nm, hnm⟩ := Option.isSome_iff_exists.mp (hall r (List.mem_cons_self r rest))
    rw [List.filterMap_cons, hnm] at hnd
    have hnotin : nm ∉ acc.map (·.stop_name) := by
      intro hmem
      rw [List.nodup_append] at hnd
      exact hnd.2.2 hmem (List.mem_cons_self nm _)
    have hany : ¬ acc.any (fun g => g.stop_name == nm) = true := by
      intro h
      obtain ⟨g0, hg0, hp⟩ := List.any_eq_true.mp h
      exact hnotin (List.mem_map.mpr ⟨g0, hg0, by simpa using hp⟩)
    have hstep : insertResult acc r = acc ++ [initGroup nm r] := by
      unfold insertResult
      rw [hnm]
      simp only [if_neg hany]
    rw [List.foldl_cons, hstep, ih (acc ++ [initGroup nm r])
      (fun r' hr' => hall r' (List.mem_cons_of_mem r hr'))
      (by
        rw [List.map_append]
        rw [List.append_assoc]
        simpa [initGroup] using hnd)]
    rw [List.map_cons, hnm]
    simp [List.append_assoc]

theorem groupLoc_go_filter (rs : List RawLoc) (acc : List StopGroup) :
    rs.foldl insertResult acc =
      (rs.filter (fun r => (truthyStr r.stop_name).isSome)).foldl insertResult acc := by
  induction rs generalizing acc with
  | nil => rfl
  | cons r rest ih =>
    cases htr : truthyStr r.stop_name with
    | none =>
      have hstep : insertResult acc r = acc := by
        unfold insertResult
        rw [htr]
      rw [List.filter_cons]
      simp only [htr, Option.isSome_none]
      rw [List.foldl_cons, hstep]
      exact ih acc
    | some nm =>
      rw [List.filter_cons]
      simp only [htr, Option.isSome_some, if_true]
      rw [List.foldl_cons, List.foldl_cons]
      exact ih _

theorem find?_map_update_eq (l : List StopGroup) (nm : String) (r : RawLoc) :
    (l.map (fun g => if g.stop_name == nm then updateGroup g r else g)).find?
        (fun g => g.stop_name == nm) =
      (l.find? (fun g => g.stop_name == nm)).map (fun g => updateGroup g r) := by
  induction l with
  | nil => rfl
  | cons b bs ih =>
    by_cases hb : (b.stop_name == nm) = true
    · have hb' : ((updateGroup b r).stop_name == nm) = true := by
        rw [updateGroup_stop_name]
        exact hb
      rw [List.map_cons, if_pos hb]
      rw [List.find?_cons, hb', List.find?_cons, hb]
      rfl
    · have hbf : (b.stop_name == nm) = false := by simpa using hb
      rw [List.map_cons, if_neg hb]
      rw [List.find?_cons, hbf, List.find?_cons, hbf]
      exact ih

theorem find?_map_update_ne (l : List StopGroup) (nm nm' : String) (r : RawLoc)
    (h : nm ≠ nm') :
    (l.map (fun g => if g.stop_name == nm' then updateGroup g r else g)).find?
        (fun g => g.stop_name == nm) =
      l.find? (fun g => g.stop_name == nm) := by
  induction l with
  | nil => rfl
  | cons b bs ih =>
    by_cases hb : (b.stop_name == nm') = true
    · have hbn : b.stop_name = nm' := by simpa using hb
      have hne : ((updateGroup b r).stop_name == nm) = false := by
        rw [updateGroup_stop_name, hbn]
        simpa using fun he => h he.symm
      have hne' : (b.stop_name == nm) = false := by
        rw [hbn]
        simpa using fun he => h he.symm
      rw [List.map_cons, if_pos hb]
      rw [List.find?_cons, hne, List.find?_cons, hne']
      exact ih
    · rw [List.map_cons, if_neg hb]
      by_cases hbn : (b.stop_name == nm) = true
      · rw [List.find?_cons, hbn, List.find?_cons, hbn]
      · have hbf : (b.stop_name == nm) = false := by simpa using hbn
        rw [List.find?_cons, hbf, List.find?_cons, hbf]
        exact ih

theorem find?_append_one (l : List StopGroup) (p : StopGroup → Bool) (x : StopGroup) :
    (l ++ [x]).find? p =
      match l.find? p with
      | some g => some g
      | none => if p x then some x else none := by
  induction l with
  | nil =>
    simp only [List.nil_append, List.find?_nil]
    by_cases hx : p x = true
    · rw [List.find?_cons, hx]
      simp
    · have hxf : p x = false := by simpa using hx
      rw [List.find?_cons, hxf]
      simp
  | cons b bs ih =>
    by_cases hb : p b = true
    · rw [List.cons_append, List.find?_cons, hb, List.find?_cons, hb]
    · have hbf : p b = false := by simpa using hb
      rw [List.cons_append, List.find?_cons, hbf, List.find?_cons, hbf]
      exact ih

theorem groupLoc_go_find (rs : List RawLoc) (acc : List StopGroup) (nm : String) :
    findGroup nm (rs.foldl insertResult acc) =
      match findGroup nm acc with
      | some g => some ((membersOf nm rs).foldl updateGroup g)
      | none =>
        match membersOf nm rs with
        | [] => none
        | m :: ms => some (ms.foldl updateGroup (initGroup nm m)) := by
  induction rs generalizing acc with
  | nil =>
    cases hf : findGroup nm acc <;> simp [membersOf, hf]
  | cons r rest ih =>
    rw [List.foldl_cons, ih (insertResult acc r)]
    cases htr : truthyStr r.stop_name with
    | none =>
      have hstep : insertResult acc r = acc := by
        unfold insertResult
        rw [htr]
      have hpred : (truthyStr r.stop_name == some nm) = false := by
        rw [htr]
        rfl
      rw [hstep]
      simp [membersOf, List.filter_cons, hpred]
    | some nm' =>
      by_cases hq : nm' = nm
      · subst hq
        have hpred : (truthyStr r.stop_name == some nm') = true := by
          rw [htr]
          simp
        cases hf : findGroup nm' acc with
        | some g =>
          have hf2 : List.find? (fun g => g.stop_name == nm') acc = some g := hf
          have hany : acc.any (fun g => g.stop_name == nm') = true := by
            refine List.any_eq_true.mpr ⟨g, List.mem_of_find?_eq_some hf2, ?_⟩
            simpa using List.find?_some hf2
          have hstep : insertResult acc r =
              acc.map (fun g => if g.stop_name == nm' then updateGroup g r else g) := by
            unfold insertResult
            rw [htr]
            simp only [if_pos hany]
          have hfind' : findGroup nm' (insertResult acc r) = some (updateGroup g r) := by
            rw [hstep]
            unfold findGroup
            rw [find?_map_update_eq]
            unfold findGroup at hf
            rw [hf]
            rfl
          rw [hfind']
          simp [membersOf, List.filter_cons, hpred]
        | none =>
          have hf2 : List.find? (fun g => g.stop_name == nm') acc = none := hf
          have hany : acc.any (fun g => g.stop_name == nm') = false := by
            rw [List.any_eq_false]
            intro x hx
            exact List.find?_eq_none.mp hf2 x hx
          have hstep : insertResult acc r = acc ++ [initGroup nm' r] := by
            unfold insertResult
            rw [htr]
            simp only [hany, Bool.false_eq_true, if_false]
          have hfind' : findGroup nm' (insertResult acc r) = some (initGroup nm' r) := by
            rw [hstep]
            unfold findGroup
            rw [find?_append_one]
            unfold findGroup at hf
            rw [hf]
            simp [initGroup]
          rw [hfind']
          simp [membersOf, List.filter_cons, hpred]
      · have hpred : (truthyStr r.stop_name == some nm) = false := by
          rw [htr]
          simp [hq]
        have hfind' : findGroup nm (insertResult acc r) = findGroup nm acc := by
          unfold insertResult
          rw [htr]
          by_cases hany : acc.any (fun g => g.stop_name == nm') = true
          · simp only [if_pos hany]
            exact find?_map_update_ne acc nm nm' r (fun he => hq he.symm)
          · simp only [hany, Bool.false_eq_true, if_false]
            unfold findGroup
            rw [find?_append_one]
            have : ((initGroup nm' r).stop_name == nm) = false := by
              simp [initGroup, hq]
            rw [this]
            cases acc.find? (fun g => g.stop_name == nm) <;> rfl
        rw [hfind']
        simp [membersOf, List.filter_cons, hpred]

theorem groupLocationResults_find (rs : List RawLoc) (nm : String) :
    findGroup nm (groupLocationResults rs) =
      match membersOf nm rs with
      | [] => none
      | m :: ms => some (ms.foldl updateGroup (initGroup nm m)) := by
  unfold groupLocationResults
  rw [groupLoc_go_find rs [] nm]
  rfl

theorem foldl_update_stop_id (ms : List RawLoc) (g : StopGroup) :
    (ms.foldl updateGroup g).stop_id = g.stop_id ++ ms.map (·.stop_id) := by
  induction ms generalizing g with
  | nil => simp
  | cons m rest ih =>
    rw [List.foldl_cons, ih, updateGroup_stop_id, List.map_cons, List.append_assoc]
    rfl

theorem foldl_update_platforms (ms : List RawLoc) (g : StopGroup) :
    (ms.foldl updateGroup g).platforms = g.platforms + ms.length := by
  induction ms generalizing g with
  | nil => simp
  | cons m rest ih =>
    rw [List.foldl_cons, ih, updateGroup_platforms, List.length_cons]
    omega

theorem foldl_update_stop_name (ms : List RawLoc) (g : StopGroup) :
    (ms.foldl updateGroup g).stop_name = g.stop_name := by
  induction ms generalizing g with
  | nil => rfl
  | cons m rest ih => rw [List.foldl_cons, ih, updateGroup_stop_name]

theorem foldl_update_locality (ms : List RawLoc) (g : StopGroup) :
    (ms.foldl updateGroup g).locality = g.locality := by
  induction ms generalizing g with
  | nil => rfl
  | cons m rest ih => rw [List.foldl_cons, ih, updateGroup_locality]

theorem foldl_update_coords (ms : List RawLoc) (g : StopGroup) :
    ((ms.foldl updateGroup g).longitude, (ms.foldl updateGroup g).latitude) =
      if g.longitude = none then
        match ms.find? (fun r => r.longitude.isSome) with
        | some r => (r.longitude, r.latitude)
        | none => (g.longitude, g.latitude)
      else (g.longitude, g.latitude) := by
  induction ms generalizing g with
  | nil =>
    simp only [List.foldl_nil, List.find?_nil]
    split <;> rfl
  | cons m rest ih =>
    by_cases hg : g.longitude = none
    · by_cases hm : m.longitude = none
      · have hkeep := updateGroup_coords_keep g m (by simp [hm])
        have hpred : (m.longitude.isSome : Bool) = false := by simp [hm]
        rw [List.foldl_cons, ih (updateGroup g m)]
        rw [List.find?_cons, hpred]
        rw [if_pos hg]
        rw [if_pos (hkeep.1.trans hg)]
        cases hf : rest.find? (fun r => r.longitude.isSome) with
        | some r => rfl
        | none =>
          simp only [hkeep.1, hkeep.2, hg]
      · have hset := updateGroup_coords_set g m hg hm
        have hpred : (m.longitude.isSome : Bool) = true := by
          simpa [Option.isSome_iff_ne_none] using hm
        rw [List.foldl_cons, ih (updateGroup g m)]
        rw [List.find?_cons, hpred]
        rw [if_pos hg]
        rw [if_neg (by rw [hset.1]; exact hm)]
        rw [hset.1, hset.2]
    · have hkeep := updateGroup_coords_keep g m (by simp [hg])
      rw [List.foldl_cons, ih (updateGroup g m)]
      rw [if_neg hg]
      rw [if_neg (by rw [hkeep.1]; exact hg)]
      rw [hkeep.1, hkeep.2]

theorem find?_of_mem_nodup (l : List StopGroup) (g : StopGroup)
    (hnd : (l.map (·.stop_name)).Nodup) (hm : g ∈ l) :
    findGroup g.stop_name l = some g := by
  induction l with
  | nil => cases hm
  | cons b bs ih =>
    rw [List.map_cons, List.nodup_cons] at hnd
    obtain ⟨hb, hnd'⟩ := hnd
    rcases List.mem_cons.mp hm with rfl | hm'
    · unfold findGroup
      rw [List.find?_cons]
      simp
    · have hbn : (b.stop_name == g.stop_name) = false := by
        simp only [beq_eq_false_iff_ne, ne_eq]
        intro he
        exact hb (he ▸ List.mem_map.mpr ⟨g, hm', rfl⟩)
      unfold findGroup
      rw [List.find?_cons, hbn]
      exact ih hnd' hm'

/-! ## Helper lemmas: rounding and truthiness -/

theorem pyRound_le (q : ℚ) (n : ℤ) (h : q ≤ (n : ℚ)) : pyRound q ≤ n := by
  have hf : ⌊q⌋ ≤ n := by
    have h2 := Int.floor_le_floor h
    simpa using h2
  have hden : (0 : ℤ) < (q.den : ℤ) := by exact_mod_cast q.den_pos
  have key : ¬ (2 * q.num - 2 * ⌊q⌋ * (q.den : ℤ) < (q.den : ℤ)) → ⌊q⌋ + 1 ≤ n := by
    intro hc
    have h0 : (0 : ℤ) < 2 * q.num - 2 * ⌊q⌋ * (q.den : ℤ) :=
      lt_of_lt_of_le hden (not_lt.mp hc)
    have hlt : ((⌊q⌋ : ℤ) : ℚ) < q := by
      have hmul : 2 * ⌊q⌋ * (q.den : ℤ) = 2 * (⌊q⌋ * (q.den : ℤ)) := by ring
      have hi : (⌊q⌋ : ℤ) * (q.den : ℤ) < q.num := by omega
      have hq : ((⌊q⌋ : ℤ) : ℚ) * ((q.den : ℕ) : ℚ) < ((q.num : ℤ) : ℚ) := by
        exact_mod_cast hi
      have hdq : (0 : ℚ) < ((q.den : ℕ) : ℚ) := by exact_mod_cast q.den_pos
      have h2 : ((⌊q⌋ : ℤ) : ℚ) < ((q.num : ℤ) : ℚ) / ((q.den : ℕ) : ℚ) := by
        rw [lt_div_iff₀ hdq]
        exact hq
      rw [Rat.num_div_den q] at h2
      exact h2
    rcases lt_or_eq_of_le hf with h' | h'
    · omega
    · exfalso
      rw [h'] at hlt
      exact absurd h (not_le.mpr hlt)
  simp only [pyRound]
  split_ifs with h1 h2 h3
  · exact hf
  · exact key h1
  · exact hf
  · exact key h1

theorem truthyQ_isSome (x : Option ℚ) (h : truthyQ x = true) : x.isSome := by
  cases x with
  | none => simp [truthyQ] at h
  | some q => rfl

theorem truthyQ_ne_zero (x : Option ℚ) (h : truthyQ x = true) : x ≠ some 0 := by
  cases x with
  | none => simp
  | some q =>
    simp only [truthyQ, ne_eq, decide_eq_true_eq] at h
    simpa using h

/-! ## Claim C2 -/

/-- C2 counterexample: the record with primary id `"B"` is appended by
`_add_to_cache` even though `"B"` occurs in the flat set of all cached ids
(inside `cacheAB`'s id list `["A", "B"]`) — the code checks only primary ids,
so the claim as stated is false. -/
theorem add_to_cache_flat_ids_cex :
    "B" ∈ flatIds cacheAB ∧
      (add_to_cache cacheAB stopB).1 =
        [⟨"A", ["A", "B"], "X", none, none, none, 2⟩,
         ⟨"B", ["B"], "Y", none, none, none, 1⟩] := by
  decide

/-- C2 (amended): a stop of the merge batch is appended if and only if its
primary id is absent from the set of the cached records' primary ids (not the
flat set of all ids); the cache is otherwise unchanged. -/
theorem add_to_cache_primary_id_mem (cache stops : List GroupedStop) (x : GroupedStop) :
    x ∈ (add_to_cache cache stops).1 ↔
      x ∈ cache ∨ (x ∈ stops ∧ x.stop_id ∉ cache.map (·.stop_id)) := by
  simp only [add_to_cache]
  split_ifs with he
  · rw [List.isEmpty_iff] at he
    constructor
    · exact Or.inl
    · rintro (h | ⟨hs, hid⟩)
      · exact h
      · exfalso
        have hmem : x ∈ stops.filter (fun s => !((cache.map (·.stop_id)).contains s.stop_id)) := by
          rw [List.mem_filter]
          exact ⟨hs, by simpa using hid⟩
        rw [he] at hmem
        cases hmem
  · rw [List.mem_append, List.mem_filter]
    constructor
    · rintro (h | ⟨hs, hid⟩)
      · exact Or.inl h
      · exact Or.inr ⟨hs, by simpa using hid⟩
    · rintro (h | ⟨hs, hid⟩)
      · exact Or.inl h
      · exact Or.inr ⟨hs, by simpa using hid⟩

/-! ## Claim C7 -/

/-- C7 counterexample: merging 5 fresh stops into a 48-stop cache makes the
total cross the multiple 50 (48 < 50 ≤ 53), yet `_add_to_cache` does not
persist, because it tests `len(cache) % 50 == 0` on the new total (53), not
boundary crossing — so the claim as stated is false. -/
theorem add_to_cache_persist_cross50_cex :
    cache48.length = 48 ∧
      (add_to_cache cache48 batch5).1.length = 53 ∧
      (add_to_cache cache48 batch5).2 = false ∧
      (48 < 50 ∧ 50 ≤ 53 ∧ ¬ (10 ≤ batch5.length)) := by
  decide

/-- C7 (amended): a merge persists the cache exactly when the batch of newly
appended stops is non-empty and either has size at least 10 or the resulting
total cached count is exactly divisible by 50. -/
theorem add_to_cache_persist_iff (cache stops : List GroupedStop) :
    (add_to_cache cache stops).2 = true ↔
      (stops.filter (fun s => !((cache.map (·.stop_id)).contains s.stop_id)) ≠ [] ∧
        (10 ≤ (stops.filter (fun s => !((cache.map (·.stop_id)).contains s.stop_id))).length ∨
          (cache.length +
            (stops.filter (fun s => !((cache.map (·.stop_id)).contains s.stop_id))).length)
            % 50 = 0)) := by
  simp only [add_to_cache]
  split_ifs with he
  · rw [List.isEmpty_iff] at he
    rw [he]
    simp
  · rw [List.isEmpty_iff] at he
    rw [List.length_append]
    simp only [decide_eq_true_eq]
    exact ⟨fun h => ⟨he, h⟩, fun h => h.2⟩

/-! ## Claim C3 -/

/-- C3 counterexample: a trip whose single leg element is neither a
continuous nor a timed leg produces a trip with an empty leg list —
`_parse_trip_leg` returns `None` and `_parse_trip_results` skips it, so the
leg is omitted rather than represented as a minimal record, and the returned
leg count (0) differs from the response's (1). -/
theorem parse_trip_leg_unrecognized_cex :
    parse_trip_results oneUnknownLegTrip = [⟨none, none, none, []⟩] ∧
      parse_trip_leg ⟨none, none⟩ = none := by
  decide

/-- C3 (amended): a leg element that is neither continuous nor timed is
omitted from the parsed leg sequence; recognized legs each contribute exactly
one entry in document order, so the returned leg count equals the number of
recognized leg elements (not the number of all leg elements). -/
theorem parse_trip_legs_recognized_only :
    (∀ (xs ys : List TripLegElem) (e : TripLegElem),
        e.continuousLeg = none → e.timedLeg = none →
        (xs ++ e :: ys).filterMap parse_trip_leg = (xs ++ ys).filterMap parse_trip_leg) ∧
    (∀ (tre : TripResultElem) (t : TripElem) (rs : List TripResultElem),
        tre.trip = some t →
        parse_trip_results (tre :: rs) =
          ⟨t.start_time, t.end_time, t.duration, t.legs.filterMap parse_trip_leg⟩ ::
            parse_trip_results rs) ∧
    (∀ ls : List TripLegElem,
        (ls.filterMap parse_trip_leg).length =
          (ls.filter (fun e => e.continuousLeg.isSome || e.timedLeg.isSome)).length) := by
  refine ⟨?_, ?_, ?_⟩
  · intro xs ys e h1 h2
    have he : parse_trip_leg e = none := by
      unfold parse_trip_leg
      rw [h1, h2]
    rw [List.filterMap_append, List.filterMap_append, List.filterMap_cons, he]
  · intro tre t rs ht
    unfold parse_trip_results
    rw [List.filterMap_cons, ht]
    rfl
  · intro ls
    induction ls with
    | nil => rfl
    | cons e rest ih =>
      rw [List.filterMap_cons, List.filter_cons]
      cases hc : e.continuousLeg with
      | some c =>
        have hp : parse_trip_leg e = some (parse_continuous_leg c) := by
          unfold parse_trip_leg
          rw [hc]
        rw [hp]
        simp [hc, ih]
      | none =>
        cases htl : e.timedLeg with
        | some tl =>
          have hp : parse_trip_leg e = some (parse_timed_leg tl) := by
            unfold parse_trip_leg
            rw [hc, htl]
          rw [hp]
          simp [hc, htl, ih]
        | none =>
          have hp : parse_trip_leg e = none := by
            unfold parse_trip_leg
            rw [hc, htl]
          rw [hp]
          simp [hc, htl, ih]

/-- C3 witness: instantiating the amended theorem on a concrete unrecognized
leg element between empty contexts. -/
theorem parse_trip_legs_recognized_only_witness :
    ([] ++ (⟨none, none⟩ : TripLegElem) :: []).filterMap parse_trip_leg =
      ([] ++ ([] : List TripLegElem)).filterMap parse_trip_leg :=
  parse_trip_legs_recognized_only.1 [] [] ⟨none, none⟩ rfl rfl

/-! ## Claim C6 -/

theorem processBody_ok_iff {α : Type} (parse : String → Option α) (body : String) (d : α) :
    processBody parse body = .ok d ↔ (pyStrip body ≠ "" ∧ parse body = some d) := by
  unfold processBody
  split_ifs with h
  · simp [h]
  · cases hp : parse body with
    | none => simp [h, hp]
    | some x => simp [h, hp]

/-- C6 counterexample: for a 301 response (not a 2xx status) with a parsable
non-empty body, `_make_request` returns the parsed document instead of
failing — the code only raises for statuses of 400-599, so "fails exactly on
non-2xx" is false as stated. -/
theorem make_request_non2xx_ok_cex :
    (make_request (fun b => if b = "<a/>" then some 0 else none)
        (.response 301 "<a/>")).2 = .ok 0 ∧
      ¬ (200 ≤ 301 ∧ 301 ≤ 299) := by
  decide

/-- C6 (amended): `_make_request` fails with the re-raised request error on a
connection failure or an HTTP status in 400-599 (the status failure carrying
the status code in its message and the status plus a 2000-character body
excerpt in the printed diagnostic), fails with the empty-body error when the
stripped body is empty, fails on an unparsable body, and otherwise returns
the parsed response document (not the raw body, and regardless of the status
being 2xx). -/
theorem make_request_outcome_spec {α : Type} (parse : String → Option α) (out : HttpOutcome) :
    (∀ (s : Nat) (body : String) (d : α), out = .response s body →
        ((make_request parse out).2 = .ok d ↔
          (¬(400 ≤ s ∧ s < 600) ∧ pyStrip body ≠ "" ∧ parse body = some d))) ∧
    (∀ (m : String) (d : α), out = .connError m →
        (make_request parse out).2 = .requestFailed ("API request failed: " ++ m) ∧
          (make_request parse out).2 ≠ .ok d) ∧
    (∀ (s : Nat) (body : String), out = .response s body → 400 ≤ s → s < 600 →
        (make_request parse out).2 =
            .requestFailed ("API request failed: " ++ httpErrorText s) ∧
          statusDiagnostic s body ∈ (make_request parse out).1) ∧
    (∀ (s : Nat) (body : String), out = .response s body → ¬(400 ≤ s ∧ s < 600) →
        pyStrip body = "" → (make_request parse out).2 = .emptyBody) := by
  refine ⟨?_, ?_, ?_, ?_⟩
  · rintro s body d rfl
    simp only [make_request]
    by_cases h4 : 400 ≤ s
    · by_cases h6 : s < 600
      · rw [if_pos h4, if_pos h6]
        simp [h4, h6]
      · rw [if_pos h4, if_neg h6]
        show processBody parse body = MakeReqResult.ok d ↔ _
        rw [processBody_ok_iff]
        simp [h6]
    · rw [if_neg h4]
      show processBody parse body = MakeReqResult.ok d ↔ _
      rw [processBody_ok_iff]
      simp [h4]
  · rintro m d rfl
    simp [make_request]
  · rintro s body rfl h4 h6
    simp only [make_request]
    rw [if_pos h4, if_pos h6]
    simp
  · rintro s body rfl hnot hempty
    simp only [make_request]
    by_cases h4 : 400 ≤ s
    · have h6 : ¬ s < 600 := fun h6 => hnot ⟨h4, h6⟩
      rw [if_pos h4, if_neg h6]
      simp [processBody, hempty]
    · rw [if_neg h4]
      simp [processBody, hempty]

/-- C6 witness: a 200 response with a parsable body yields the parsed
document, by the amended theorem. -/
theorem make_request_outcome_spec_witness :
    (make_request (fun b => if b = "<ok/>" then some (0 : ℕ) else none)
        (.response 200 "<ok/>")).2 = .ok 0 :=
  ((make_request_outcome_spec (fun b => if b = "<ok/>" then some (0 : ℕ) else none)
      (.response 200 "<ok/>")).1 200 "<ok/>" 0 rfl).mpr
    ⟨by decide, by decide, by decide⟩

/-! ## Claims C1 and C9 -/

theorem geo_filter_mem_spec (hav : ℚ → ℚ → ℚ) (radius : ℤ) (results : List GroupedStop)
    (o : DistStop) (ho : o ∈ geo_filter hav radius results) :
    o.loc ∈ results ∧
      truthyQ o.loc.latitude = true ∧ truthyQ o.loc.longitude = true ∧
      hav (o.loc.latitude.getD 0) (o.loc.longitude.getD 0) ≤ (radius : ℚ) ∧
      o.distance = pyRound (hav (o.loc.latitude.getD 0) (o.loc.longitude.getD 0)) := by
  simp only [geo_filter] at ho
  rw [sortByDistance_mem] at ho
  obtain ⟨r, hr, heq⟩ := List.mem_filterMap.mp ho
  by_cases hc : (truthyQ r.latitude && truthyQ r.longitude) = true
  · rw [if_pos hc] at heq
    by_cases hd : hav (r.latitude.getD 0) (r.longitude.getD 0) ≤ (radius : ℚ)
    · rw [if_pos hd] at heq
      obtain rfl := Option.some_inj.mp heq
      obtain ⟨hlat, hlon⟩ := (Bool.and_eq_true _ _).mp hc
      exact ⟨hr, hlat, hlon, hd, rfl⟩
    · rw [if_neg hd] at heq
      cases heq
  · rw [if_neg hc] at heq
    cases heq

theorem geo_filter_sorted (hav : ℚ → ℚ → ℚ) (radius : ℤ) (results : List GroupedStop) :
    (geo_filter hav radius results).Pairwise (fun a b => a.distance ≤ b.distance) := by
  simp only [geo_filter]
  exact sortByDistance_pairwise _

/-- C1: every record in the output of the coordinate search comes from the
parsed results, has both coordinates present (truthy), has computed distance
at most the radius, carries that distance attached (rounded to whole meters,
as the code attaches `round(dist)`), itself at most the radius, and the
output is sorted non-decreasing by the attached distance; records lacking
coordinates never appear.  The float Haversine pipeline (R = 6,371,000 m,
center folded in) is the instantiation of the distance function `hav`; the
properties hold for every distance function. -/
theorem search_by_coordinates_radius_sorted (hav : ℚ → ℚ → ℚ) (radius : ℤ)
    (rs : List RawLoc) :
    (∀ o ∈ search_location_by_coordinates hav radius rs,
        o.loc ∈ parse_location_results rs ∧
          o.loc.latitude.isSome ∧ o.loc.longitude.isSome ∧
          hav (o.loc.latitude.getD 0) (o.loc.longitude.getD 0) ≤ (radius : ℚ) ∧
          o.distance = pyRound (hav (o.loc.latitude.getD 0) (o.loc.longitude.getD 0)) ∧
          o.distance ≤ radius) ∧
      (search_location_by_coordinates hav radius rs).Pairwise
        (fun a b => a.distance ≤ b.distance) := by
  constructor
  · intro o ho
    obtain ⟨hmem, hlat, hlon, hd, hdist⟩ :=
      geo_filter_mem_spec hav radius (parse_location_results rs) o ho
    refine ⟨hmem, truthyQ_isSome _ hlat, truthyQ_isSome _ hlon, hd, hdist, ?_⟩
    rw [hdist]
    exact pyRound_le _ _ hd
  · exact geo_filter_sorted hav radius (parse_location_results rs)

/-- C1 witness: the filter/sort contract instantiated on a concrete stop and
the constant-3-meter distance function at radius 500. -/
theorem search_by_coordinates_radius_sorted_witness :
    (⟨innerCityStop, 3⟩ : DistStop).loc ∈ parse_location_results [innerCityRaw] ∧
      (⟨innerCityStop, 3⟩ : DistStop).loc.latitude.isSome ∧
      (⟨innerCityStop, 3⟩ : DistStop).loc.longitude.isSome ∧
      constHav3 ((⟨innerCityStop, 3⟩ : DistStop).loc.latitude.getD 0)
          ((⟨innerCityStop, 3⟩ : DistStop).loc.longitude.getD 0) ≤ ((500 : ℤ) : ℚ) ∧
      (⟨innerCityStop, 3⟩ : DistStop).distance =
        pyRound (constHav3 ((⟨innerCityStop, 3⟩ : DistStop).loc.latitude.getD 0)
          ((⟨innerCityStop, 3⟩ : DistStop).loc.longitude.getD 0)) ∧
      (⟨innerCityStop, 3⟩ : DistStop).distance ≤ (500 : ℤ) :=
  (search_by_coordinates_radius_sorted constHav3 500 [innerCityRaw]).1
    ⟨innerCityStop, 3⟩ (by decide)

/-- C9: the coordinate-search filter tests coordinate truthiness, so a record
whose parsed latitude or longitude is exactly `0.0` (or missing) never
appears in the filtered output; concretely, a stop on the equator
(latitude 0.0) three meters from the center is excluded at radius 500. -/
theorem coordinate_zero_excluded :
    (∀ (hav : ℚ → ℚ → ℚ) (radius : ℤ) (rs : List RawLoc),
        ∀ o ∈ search_location_by_coordinates hav radius rs,
          o.loc.latitude ≠ some 0 ∧ o.loc.longitude ≠ some 0 ∧
            o.loc.latitude ≠ none ∧ o.loc.longitude ≠ none) ∧
      (parse_location_results [equatorRaw] =
          [⟨"s", ["s"], "Equator", none, some 15, some 0, 1⟩] ∧
        constHav3 0 15 ≤ ((500 : ℤ) : ℚ) ∧
        search_location_by_coordinates constHav3 500 [equatorRaw] = []) := by
  constructor
  · intro hav radius rs o ho
    obtain ⟨_, hlat, hlon, _, _⟩ :=
      geo_filter_mem_spec hav radius (parse_location_results rs) o ho
    refine ⟨truthyQ_ne_zero _ hlat, truthyQ_ne_zero _ hlon, ?_, ?_⟩
    · exact Option.ne_none_iff_isSome.mpr (truthyQ_isSome _ hlat)
    · exact Option.ne_none_iff_isSome.mpr (truthyQ_isSome _ hlon)
  · exact ⟨by decide, by decide, by decide⟩

/-- C9 witness: the exclusion property instantiated on a concrete record of a
concrete search output. -/
theorem coordinate_zero_excluded_witness :
    (⟨innerCityStop, 3⟩ : DistStop).loc.latitude ≠ some 0 ∧
      (⟨innerCityStop, 3⟩ : DistStop).loc.longitude ≠ some 0 ∧
      (⟨innerCityStop, 3⟩ : DistStop).loc.latitude ≠ none ∧
      (⟨innerCityStop, 3⟩ : DistStop).loc.longitude ≠ none :=
  coordinate_zero_excluded.1 constHav3 500 [innerCityRaw] ⟨innerCityStop, 3⟩ (by decide)

/-! ## Claims C10 and C5 -/

theorem parse_names_ne_empty (rs : List RawLoc) :
    ∀ c ∈ parse_location_results rs, c.stop_name ≠ "" := by
  intro c hc
  obtain ⟨g, hg, rfl⟩ := List.mem_map.mp hc
  simpa [toCombined] using (groupLocationResults_good rs).1 g hg

/-- C10: every record produced by the location-parsing path carries a
non-empty display name, and raw results with a missing or empty name are
silently dropped: the parse output is unchanged when they are removed from
the input. -/
theorem grouped_names_nonempty_filter (rs : List RawLoc) :
    (∀ c ∈ parse_location_results rs, c.stop_name ≠ "") ∧
      parse_location_results rs =
        parse_location_results (rs.filter (fun r => (truthyStr r.stop_name).isSome)) := by
  refine ⟨parse_names_ne_empty rs, ?_⟩
  unfold parse_location_results groupLocationResults
  rw [groupLoc_go_filter rs []]

/-- C10 witness: the record grouped from two same-named platforms has a
non-empty name. -/
theorem grouped_names_nonempty_filter_witness :
    (⟨"a", ["a", "b"], "X", none, none, none, 2⟩ : GroupedStop).stop_name ≠ "" :=
  (grouped_names_nonempty_filter twoPlatformsX).1
    ⟨"a", ["a", "b"], "X", none, none, none, 2⟩ (by decide)

theorem filterMap_truthy_of_names (l : List GroupedStop)
    (h : ∀ c ∈ l, c.stop_name ≠ "") :
    (l.map groupedToRaw).filterMap (fun r => truthyStr r.stop_name) =
      l.map (·.stop_name) := by
  induction l with
  | nil => rfl
  | cons c cs ih =>
    rw [List.map_cons, List.filterMap_cons]
    have ht : truthyStr (groupedToRaw c).stop_name = some c.stop_name := by
      simp [groupedToRaw, truthyStr, h c (List.mem_cons_self c cs)]
    simp only [ht]
    rw [ih (fun c' hc' => h c' (List.mem_cons_of_mem c hc'))]
    rfl

/-- C5 counterexample: grouping two same-named platforms gives one record with
two ids and platform count 2; feeding that output through the grouping pass
again yields a singleton id list and platform count 1, so the pass is not
idempotent as claimed. -/
theorem grouping_idempotent_cex :
    parse_location_results ((parse_location_results twoPlatformsX).map groupedToRaw) ≠
      parse_location_results twoPlatformsX := by
  decide

/-- C5 (amended): re-running the name-grouping pass over its own output
preserves every record's name, primary id, locality and coordinates, but
collapses each id list to the singleton primary id and resets each platform
count to 1; the pass is therefore idempotent exactly on outputs whose groups
are all singletons. -/
theorem grouping_regroup_collapse (rs : List RawLoc) :
    parse_location_results ((parse_location_results rs).map groupedToRaw) =
      (parse_location_results rs).map collapseStop := by
  have hne := parse_names_ne_empty rs
  have hnd := (groupLocationResults_good rs).2
  have hnames : (parse_location_results rs).map (·.stop_name) =
      (groupLocationResults rs).map (·.stop_name) := by
    unfold parse_location_results
    rw [List.map_map]
    rfl
  have htr : ∀ c ∈ parse_location_results rs,
      truthyStr (groupedToRaw c).stop_name = some c.stop_name := by
    intro c hc
    simp [groupedToRaw, truthyStr, hne c hc]
  have hall : ∀ r ∈ (parse_location_results rs).map groupedToRaw,
      (truthyStr r.stop_name).isSome := by
    intro r hr
    obtain ⟨c, hc, rfl⟩ := List.mem_map.mp hr
    rw [htr c hc]
    rfl
  have hsingle := groupLoc_go_singleton ((parse_location_results rs).map groupedToRaw) []
    hall
    (by
      rw [List.map_nil, List.nil_append]
      rw [filterMap_truthy_of_names _ hne, hnames]
      exact hnd)
  have hfold : groupLocationResults ((parse_location_results rs).map groupedToRaw) =
      ((parse_location_results rs).map groupedToRaw).map
        (fun r => initGroup ((truthyStr r.stop_name).getD "") r) := by
    unfold groupLocationResults
    rw [hsingle, List.nil_append]
  show (groupLocationResults ((parse_location_results rs).map groupedToRaw)).map toCombined = _
  rw [hfold, List.map_map, List.map_map]
  apply List.map_congr_left
  intro c hc
  show toCombined (initGroup ((truthyStr (groupedToRaw c).stop_name).getD "") (groupedToRaw c)) =
    collapseStop c
  rw [htr c hc]
  cases c
  rfl

/-! ## Claim C8 -/

/-- C8 counterexample: for two same-named raw results where the first carries
only a longitude and the second a full coordinate pair, the grouping pass
retains `(some 1, none)` — the pair of the first result with a non-null
longitude — not the first non-null coordinate pair `(some 2, some 2)`, so the
coordinate clause of the claim is false as stated. -/
theorem grouping_first_coord_pair_cex :
    parse_location_results halfCoordsX =
        [⟨"a", ["a", "b"], "X", none, some 1, none, 2⟩] ∧
      halfCoordsX.find? (fun r => r.longitude.isSome && r.latitude.isSome) =
        some ⟨"b", some "X", none, some 2, some 2⟩ ∧
      ¬ ((some (1 : ℚ), (none : Option ℚ)) = (some (2 : ℚ), some (2 : ℚ))) := by
  decide

/-- C8 (amended): every record of the grouping pass has a non-empty id list
equal to the ids of its same-named kept raw results in document order, a
primary id equal to the list's head, a platform count equal to the number of
merged raw results (hence at least 1), the first member's locality, and the
coordinate pair of the first merged raw result whose longitude is non-null
(its latitude copied even when null), or the first member's pair when no
member has a longitude. -/
theorem grouping_record_invariants (rs : List RawLoc) (c : GroupedStop)
    (hc : c ∈ parse_location_results rs) :
    c.stop_ids ≠ [] ∧
      c.stop_id = c.stop_ids.headD "" ∧
      c.stop_ids = (membersOf c.stop_name rs).map (·.stop_id) ∧
      c.platforms = (membersOf c.stop_name rs).length ∧
      1 ≤ c.platforms ∧
      c.locality = ((membersOf c.stop_name rs).headD ⟨"", none, none, none, none⟩).locality ∧
      ((c.longitude, c.latitude) =
        match (membersOf c.stop_name rs).find? (fun r => r.longitude.isSome) with
        | some r => (r.longitude, r.latitude)
        | none =>
          (((membersOf c.stop_name rs).headD ⟨"", none, none, none, none⟩).longitude,
            ((membersOf c.stop_name rs).headD ⟨"", none, none, none, none⟩).latitude)) := by
  obtain ⟨g, hg, rfl⟩ := List.mem_map.mp hc
  have hfind := find?_of_mem_nodup _ g (groupLocationResults_good rs).2 hg
  rw [groupLocationResults_find rs g.stop_name] at hfind
  have hsn : (toCombined g).stop_name = g.stop_name := rfl
  rw [hsn]
  cases hms : membersOf g.stop_name rs with
  | nil =>
    rw [hms] at hfind
    simp at hfind
  | cons m ms =>
    rw [hms] at hfind
    have hg' : ms.foldl updateGroup (initGroup g.stop_name m) = g := by
      simpa using hfind
    have hids : g.stop_id = (m :: ms).map (·.stop_id) := by
      rw [← hg', foldl_update_stop_id]
      simp [initGroup]
    have hplat : g.platforms = (m :: ms).length := by
      rw [← hg', foldl_update_platforms]
      simp only [initGroup, List.length_cons]
      omega
    have hloc : g.locality = m.locality := by
      rw [← hg', foldl_update_locality]
      rfl
    have hco : (g.longitude, g.latitude) =
        match (m :: ms).find? (fun r => r.longitude.isSome) with
        | some r => (r.longitude, r.latitude)
        | none => (m.longitude, m.latitude) := by
      have hcoords := foldl_update_coords ms (initGroup g.stop_name m)
      rw [hg'] at hcoords
      cases hm : (m.longitude.isSome : Bool) with
      | true =>
        have hinit : ¬ (initGroup g.stop_name m).longitude = none := by
          have h2 := Option.isSome_iff_ne_none.mp hm
          simpa [initGroup] using h2
        rw [hcoords, if_neg hinit]
        simp only [List.find?_cons, hm]
        rfl
      | false =>
        have hmn : m.longitude = none := by
          cases hml : m.longitude with
          | none => rfl
          | some v =>
            rw [hml] at hm
            simp at hm
        have hinitn : (initGroup g.stop_name m).longitude = none := by
          simpa [initGroup] using hmn
        rw [hcoords, if_pos hinitn]
        simp only [List.find?_cons, hm]
        cases hf : ms.find? (fun r => r.longitude.isSome) with
        | some r => rfl
        | none => rfl
    refine ⟨?_, rfl, ?_, ?_, ?_, ?_, ?_⟩
    · show g.stop_id ≠ []
      rw [hids]
      simp
    · show g.stop_id = _
      rw [hids]
    · show g.platforms = _
      rw [hplat]
    · show 1 ≤ g.platforms
      rw [hplat]
      simp
    · show g.locality = _
      rw [hloc]
      rfl
    · show (g.longitude, g.latitude) = _
      rw [hco]
      rfl

/-- C8 witness: the amended invariants instantiated on the record grouped
from two same-named platforms. -/
theorem grouping_record_invariants_witness :
    (⟨"a", ["a", "b"], "X", none, none, none, 2⟩ : GroupedStop).stop_ids ≠ [] ∧
      (⟨"a", ["a", "b"], "X", none, none, none, 2⟩ : GroupedStop).stop_id =
        (⟨"a", ["a", "b"], "X", none, none, none, 2⟩ : GroupedStop).stop_ids.headD "" ∧
      (⟨"a", ["a", "b"], "X", none, none, none, 2⟩ : GroupedStop).stop_ids =
        (membersOf "X" twoPlatformsX).map (·.stop_id) ∧
      (⟨"a", ["a", "b"], "X", none, none, none, 2⟩ : GroupedStop).platforms =
        (membersOf "X" twoPlatformsX).length ∧
      1 ≤ (⟨"a", ["a", "b"], "X", none, none, none, 2⟩ : GroupedStop).platforms ∧
      (⟨"a", ["a", "b"], "X", none, none, none, 2⟩ : GroupedStop).locality =
        ((membersOf "X" twoPlatformsX).headD ⟨"", none, none, none, none⟩).locality ∧
      (((⟨"a", ["a", "b"], "X", none, none, none, 2⟩ : GroupedStop).longitude,
          (⟨"a", ["a", "b"], "X", none, none, none, 2⟩ : GroupedStop).latitude) =
        match (membersOf "X" twoPlatformsX).find? (fun r => r.longitude.isSome) with
        | some r => (r.longitude, r.latitude)
        | none =>
          (((membersOf "X" twoPlatformsX).headD ⟨"", none, none, none, none⟩).longitude,
            ((membersOf "X" twoPlatformsX).headD ⟨"", none, none, none, none⟩).latitude)) :=
  grouping_record_invariants twoPlatformsX
    ⟨"a", ["a", "b"], "X", none, none, none, 2⟩ (by decide)

/-! ## Claim C4 -/

theorem computeDelays_eq_some (p e : Option String) (pr : ℤ × ℤ)
    (h : computeDelays p e = some pr) :
    ∃ ps es tp te, p = some ps ∧ e = some es ∧
      fromisoPy ps = some tp ∧ fromisoPy es = some te ∧
      pySub te tp = some pr.1 ∧ pr.2 = pyRound60 pr.1 := by
  cases p with
  | none => simp [computeDelays] at h
  | some ps =>
    cases e with
    | none => simp [computeDelays] at h
    | some es =>
      simp only [computeDelays] at h
      split_ifs at h with hne
      · cases hp : fromisoPy ps with
        | none =>
          rw [hp] at h
          simp at h
        | some tp =>
          cases he : fromisoPy es with
          | none =>
            rw [hp, he] at h
            simp at h
          | some te =>
            simp only [hp, he] at h
            cases hsub : pySub te tp with
            | none => simp [hsub] at h
            | some s0 =>
              simp only [hsub] at h
              have hpr := Option.some_inj.mp h
              refine ⟨ps, es, tp, te, rfl, rfl, hp, he, ?_, ?_⟩
              · rw [← hpr]
                exact hsub
              · rw [← hpr]

theorem computeDelays_fail_left (ps : String) (e : Option String)
    (h : fromisoPy ps = none) : computeDelays (some ps) e = none := by
  cases e with
  | none => rfl
  | some es =>
    simp only [computeDelays]
    split_ifs with hne
    · rw [h]
    · rfl

theorem computeDelays_fail_right (p : Option String) (es : String)
    (h : fromisoPy es = none) : computeDelays p (some es) = none := by
  cases p with
  | none => rfl
  | some ps =>
    simp only [computeDelays]
    split_ifs with hne
    · cases hp : fromisoPy ps with
      | none => rfl
      | some tp => rw [h]
    · rfl

/-- C4: the delay computation of `_parse_departure_results` — the worked
example (10:00Z planned, 10:03Z estimated gives 180 seconds, 3 minutes,
realtime); an absent estimated time gives `has_realtime = false` and
`actual_time = planned_time`; `has_realtime` holds exactly when an estimated
time is present; a present `delay_seconds` is the difference estimated minus
planned in seconds of two successfully parsed timestamps with
`delay_minutes` its rounding; and both delay fields are absent whenever
either timestamp is missing or fails to parse. -/
theorem parse_departure_delay_spec (d : DepartureElem) :
    ((parse_departure exampleDep).delay_seconds = some 180 ∧
      (parse_departure exampleDep).delay_minutes = some 3 ∧
      (parse_departure exampleDep).has_realtime = true) ∧
    (d.estimatedTime = none →
      (parse_departure d).has_realtime = false ∧
        (parse_departure d).actual_time = (parse_departure d).planned_time) ∧
    ((parse_departure d).has_realtime = true ↔ d.estimatedTime.isSome = true) ∧
    (∀ s : ℤ, (parse_departure d).delay_seconds = some s →
      ∃ ps es tp te, d.timetabledTime = some ps ∧ d.estimatedTime = some es ∧
        fromisoPy ps = some tp ∧ fromisoPy es = some te ∧
        pySub te tp = some s ∧ s = te.seconds - tp.seconds ∧
        (parse_departure d).delay_minutes = some (pyRound60 s)) ∧
    (∀ ps, d.timetabledTime = some ps → fromisoPy ps = none →
      (parse_departure d).delay_seconds = none ∧
        (parse_departure d).delay_minutes = none) ∧
    (∀ es, d.estimatedTime = some es → fromisoPy es = none →
      (parse_departure d).delay_seconds = none ∧
        (parse_departure d).delay_minutes = none) ∧
    ((d.timetabledTime = none ∨ d.estimatedTime = none) →
      (parse_departure d).delay_seconds = none ∧
        (parse_departure d).delay_minutes = none) := by
  refine ⟨by decide, ?_, ?_, ?_, ?_, ?_, ?_⟩
  · intro h
    simp [parse_departure, h, truthyS]
  · simp [parse_departure]
  · intro s hs
    have hs' : (computeDelays d.timetabledTime d.estimatedTime).map (·.1) = some s := hs
    obtain ⟨pr, hpr, hfst⟩ := Option.map_eq_some'.mp hs'
    obtain ⟨ps, es, tp, te, hp, he, hip, hie, hsub, hmin⟩ :=
      computeDelays_eq_some _ _ pr hpr
    refine ⟨ps, es, tp, te, hp, he, hip, hie, ?_, ?_, ?_⟩
    · rw [hfst] at hsub
      exact hsub
    · unfold pySub at hsub
      split_ifs at hsub with haw
      rw [hfst] at hsub
      exact (Option.some_inj.mp hsub).symm
    · show (computeDelays d.timetabledTime d.estimatedTime).map (·.2) = _
      rw [hpr]
      rw [Option.map_some']
      rw [hmin, hfst]
  · intro ps hp hfail
    constructor
    · show (computeDelays d.timetabledTime d.estimatedTime).map (·.1) = none
      rw [hp, computeDelays_fail_left ps _ hfail]
      rfl
    · show (computeDelays d.timetabledTime d.estimatedTime).map (·.2) = none
      rw [hp, computeDelays_fail_left ps _ hfail]
      rfl
  · intro es he hfail
    constructor
    · show (computeDelays d.timetabledTime d.estimatedTime).map (·.1) = none
      rw [he, computeDelays_fail_right _ es hfail]
      rfl
    · show (computeDelays d.timetabledTime d.estimatedTime).map (·.2) = none
      rw [he, computeDelays_fail_right _ es hfail]
      rfl
  · intro h
    have hnone : computeDelays d.timetabledTime d.estimatedTime = none := by
      rcases h with h | h
      · rw [h]
        unfold computeDelays
        cases d.estimatedTime <;> rfl
      · rw [h]
        unfold computeDelays
        cases d.timetabledTime <;> rfl
    constructor
    · show (computeDelays d.timetabledTime d.estimatedTime).map (·.1) = none
      rw [hnone]
      rfl
    · show (computeDelays d.timetabledTime d.estimatedTime).map (·.2) = none
      rw [hnone]
      rfl

/-- C4 witness: a planned time that fails ISO-8601 parsing leaves both delay
fields absent. -/
theorem parse_departure_delay_spec_witness :
    (parse_departure badTimeDep).delay_seconds = none ∧
      (parse_departure badTimeDep).delay_minutes = none :=
  (parse_departure_delay_spec badTimeDep).2.2.2.2.1 "not-a-time" rfl (by decide)
